import Mathlib

/-!
Shallow embedding of the EDW benchmark results aggregation engine of
PerfKitBenchmarker (`perfkitbenchmarker/edw_benchmark_results_aggregator.py`)
together with proofs of its specification properties.

The aggregator module itself is absent from the source tree at hand; only its
unit tests are present (`tests/edw_benchmark_results_aggregator_test.py`).
The definitions below are therefore modelled from the specification document
(spec.md sections 3, 4, 6 and 7), with every concrete string and numeric
behaviour cross-checked against the assertions of the unit tests, which pin
down, for example, the exact metric identifiers (`edw_raw_query_time` and so
on) and the exact shape of aggregated metadata dictionaries.

Conventions of the embedding: Python floats are modelled as rationals (`ℚ`),
except for geometric-mean values, which are real numbers; Python dicts are
modelled as insertion-ordered association lists with overwriting assignment;
a raised `EdwPerformanceAggregationError` is modelled as the `Except.error`
branch of an `Except String` result.
-/

/-- Python-dict lookup on an insertion-ordered association list. -/
def dictLookup {α : Type} (d : List (String × α)) (k : String) : Option α :=
  match d with
  | [] => none
  | (k2, v) :: rest => if k2 = k then some v else dictLookup rest k

/-- Python-dict assignment `d[k] = v`: overwrite in place when the key is
present, otherwise append at the end (insertion order is preserved). -/
def dictInsert {α : Type} (d : List (String × α)) (k : String) (v : α) :
    List (String × α) :=
  match d with
  | [] => [(k, v)]
  | (k2, v2) :: rest =>
      if k2 = k then (k2, v) :: rest else (k2, v2) :: dictInsert rest k v

/-- Python `d.update(es)`: assign every entry of `es` into `d`, in order. -/
def dictUpdate {α : Type} (d es : List (String × α)) : List (String × α) :=
  es.foldl (fun acc kv => dictInsert acc kv.1 kv.2) d

/-- Execution status of a query (`EdwQueryExecutionStatus` in the module). -/
inductive EdwQueryExecutionStatus : Type
  | SUCCESSFUL : EdwQueryExecutionStatus
  | FAILED : EdwQueryExecutionStatus
deriving DecidableEq

/-- A metadata value: the engine's metadata dictionaries hold strings,
numbers and execution-status constants. -/
inductive MetaVal : Type
  | str : String → MetaVal
  | num : ℚ → MetaVal
  | status : EdwQueryExecutionStatus → MetaVal
deriving DecidableEq

/-- An insertion-ordered, string-keyed metadata dictionary. -/
abbrev Metadata : Type := List (String × MetaVal)

/-- A structured performance sample record `(metric, value, unit, metadata)`
as handed to the reporting collaborator (spec.md section 6). -/
structure Sample (α : Type) : Type where
  metric : String
  value : α
  unit : String
  metadata : Metadata
deriving DecidableEq

/-- Modelled from the spec: `EdwQueryPerformance` (the aggregator module is
missing from the tree; spec.md section 3 describes the value type).  One
query's execution outcome within one suite iteration; a negative
`performance` (the `-1.0` sentinel) denotes failure. -/
structure EdwQueryPerformance : Type where
  name : String
  performance : ℚ
  metadata : Metadata
deriving DecidableEq

/-- Modelled from the spec: the derived execution status of a query —
`SUCCESSFUL` when `elapsed_seconds >= 0`, else `FAILED` (spec.md section 3). -/
def EdwQueryPerformance.execution_status (q : EdwQueryPerformance) :
    EdwQueryExecutionStatus :=
  if 0 ≤ q.performance then .SUCCESSFUL else .FAILED

/-- Modelled from the spec: `EdwQueryPerformance.is_successful`. -/
def EdwQueryPerformance.is_successful (q : EdwQueryPerformance) : Bool :=
  decide (q.execution_status = .SUCCESSFUL)

/-- Modelled from the spec: `EdwQueryPerformance.get_performance_sample` —
metric `edw_raw_query_time` (string pinned by the unit tests), value the
elapsed seconds, unit seconds, metadata = caller metadata, then the
query-name/status keys, then the query's own metadata (spec.md 4.2). -/
def EdwQueryPerformance.get_performance_sample (q : EdwQueryPerformance)
    (m : Metadata) : Sample ℚ :=
  ⟨"edw_raw_query_time", q.performance, "seconds",
    dictUpdate
      (dictUpdate m
        [("query", .str q.name), ("execution_status", .status q.execution_status)])
      q.metadata⟩

/-- Modelled from the spec: `geometric_mean(values)` — fails when the input
is empty or contains a zero or negative value, otherwise returns the product
of the values raised to the power `1/n` (spec.md section 4.4). -/
noncomputable def geometric_mean (values : List ℚ) : Except String ℝ :=
  if values = [] ∨ ∃ v ∈ values, v ≤ 0 then
    .error ("Invalid values cannot be aggregated using geometric mean.")
  else
    .ok (((values.map (fun v : ℚ => (v : ℝ))).prod) ^ (((values.length : ℝ))⁻¹))

/-- Modelled from the spec: `EdwSuitePerformance` — the results of one suite
iteration (spec.md section 3, `SuiteIterationResult`). -/
structure EdwSuitePerformance : Type where
  name : String
  sequence : String
  total_count : ℤ
  performance : List (String × EdwQueryPerformance)
  successful_count : ℤ
deriving DecidableEq

/-- Modelled from the spec: the `EdwSuitePerformance` constructor — created
empty with a target query count. -/
def EdwSuitePerformance.init (name sequence : String) (total : ℤ) :
    EdwSuitePerformance :=
  ⟨name, sequence, total, [], 0⟩

/-- Modelled from the spec: `EdwSuitePerformance.add_query_performance` —
insert the result keyed by query name and bump `successful_count` when the
query succeeded (spec.md 4.2). -/
def EdwSuitePerformance.add_query_performance (s : EdwSuitePerformance)
    (q : EdwQueryPerformance) : EdwSuitePerformance :=
  ⟨s.name, s.sequence, s.total_count,
    dictInsert s.performance q.name q,
    s.successful_count + (if q.is_successful then 1 else 0)⟩

/-- Modelled from the spec: `EdwSuitePerformance.has_query_performance`. -/
def EdwSuitePerformance.has_query_performance (s : EdwSuitePerformance)
    (q : String) : Bool :=
  (dictLookup s.performance q).isSome

/-- Modelled from the spec: `EdwSuitePerformance.get_query_performance`
(partial lookup, `none` models the Python `KeyError` path). -/
def EdwSuitePerformance.get_query_performance (s : EdwSuitePerformance)
    (q : String) : Option EdwQueryPerformance :=
  dictLookup s.performance q

/-- Modelled from the spec: `EdwSuitePerformance.is_query_successful`. -/
def EdwSuitePerformance.is_query_successful (s : EdwSuitePerformance)
    (q : String) : Bool :=
  ((dictLookup s.performance q).map EdwQueryPerformance.is_successful).getD false

/-- Modelled from the spec: one raw sample per registered query result
(spec.md 4.2). -/
def EdwSuitePerformance.get_all_query_performance_samples
    (s : EdwSuitePerformance) (m : Metadata) : List (Sample ℚ) :=
  s.performance.map (fun p => p.2.get_performance_sample m)

/-- Modelled from the spec: `EdwSuitePerformance.is_successful` — true iff
every registered result succeeded (spec.md 4.2). -/
def EdwSuitePerformance.is_successful (s : EdwSuitePerformance) : Bool :=
  s.performance.all (fun p => p.2.is_successful)

/-- Modelled from the spec: the iteration's wall-time sample — the sum of
all registered elapsed seconds, failed sentinels included (spec.md 4.2). -/
def EdwSuitePerformance.get_wall_time_performance_sample
    (s : EdwSuitePerformance) (m : Metadata) : Sample ℚ :=
  ⟨"edw_raw_wall_time", (s.performance.map (fun p => p.2.performance)).sum,
    "seconds", m⟩

/-- Modelled from the spec: the iteration's geomean sample — the geometric
mean of all registered elapsed seconds; its failure propagates
(spec.md 4.2). -/
noncomputable def EdwSuitePerformance.get_queries_geomean_performance_sample
    (s : EdwSuitePerformance) (m : Metadata) : Except String (Sample ℝ) :=
  match geometric_mean (s.performance.map (fun p => p.2.performance)) with
  | .error e => .error e
  | .ok g => .ok ⟨"edw_raw_geomean_time", g, "seconds", m⟩

/-- Sequential `mapM` over `Except`, mirroring a Python loop or list
comprehension in which the first raised error propagates. -/
def exceptMapM {α β : Type} (f : α → Except String β) :
    List α → Except String (List β)
  | [] => .ok []
  | a :: l =>
      match f a with
      | .error e => .error e
      | .ok b =>
          match exceptMapM f l with
          | .error e => .error e
          | .ok bs => .ok (b :: bs)

/-- Whether an `Except` result is the raised-error branch. -/
def isError {α : Type} : Except String α → Bool
  | .error _ => true
  | .ok _ => false

/-- The payload of a successful `Except` result, with a default. -/
def okD {α : Type} (e : Except String α) (d : α) : α :=
  match e with
  | .ok a => a
  | .error _ => d

/-- Modelled from the spec: `EdwBenchmarkPerformance` — all iterations of
one benchmark run (spec.md section 3, `BenchmarkAggregation`). -/
structure EdwBenchmarkPerformance : Type where
  total_iterations : ℤ
  expected_suite_queries : List String
  suite_performances : List (String × EdwSuitePerformance)
deriving DecidableEq

/-- Modelled from the spec: `add_suite_performance` — reject an iteration
whose registered query-name set is not exactly the expected set (missing or
unexpected names), otherwise store it under its iteration id
(spec.md 4.3). -/
def EdwBenchmarkPerformance.add_suite_performance
    (b : EdwBenchmarkPerformance) (seq : String) (s : EdwSuitePerformance) :
    Except String EdwBenchmarkPerformance :=
  let names := s.performance.map Prod.fst
  if ∃ q ∈ b.expected_suite_queries, q ∉ names then
    .error ("Suite iteration is missing expected queries.")
  else if ∃ q ∈ names, q ∉ b.expected_suite_queries then
    .error ("Suite iteration contains unexpected queries.")
  else
    .ok ⟨b.total_iterations, b.expected_suite_queries,
      dictInsert b.suite_performances seq s⟩

/-- Modelled from the spec: `EdwBenchmarkPerformance.is_successful` — every
registered iteration is successful (spec.md 4.3). -/
def EdwBenchmarkPerformance.is_successful (b : EdwBenchmarkPerformance) :
    Bool :=
  b.suite_performances.all (fun p => p.2.is_successful)

/-- Modelled from the spec: `aggregated_query_status` — true only when the
query is present and successful in every registered iteration
(spec.md 4.1). -/
def EdwBenchmarkPerformance.aggregated_query_status
    (b : EdwBenchmarkPerformance) (q : String) : Bool :=
  b.suite_performances.all (fun p =>
    match dictLookup p.2.performance q with
    | some qp => qp.is_successful
    | none => false)

/-- Modelled from the spec: `aggregated_query_execution_time` — the
arithmetic mean of the query's elapsed seconds across iterations; raises
when the query is missing or failed anywhere (spec.md 4.1). -/
def EdwBenchmarkPerformance.aggregated_query_execution_time
    (b : EdwBenchmarkPerformance) (q : String) : Except String ℚ :=
  if b.aggregated_query_status q then
    let ts := b.suite_performances.filterMap
      (fun p => (dictLookup p.2.performance q).map (fun qp => qp.performance))
    .ok (ts.sum / (ts.length : ℚ))
  else
    .error ("Cannot aggregate execution times of a missing or failed query.")

/-- Modelled from the spec: the metadata entries one iteration contributes
for a query — a `{iteration_id}_runtime` entry followed by a
`{iteration_id}_{key}` entry per metadata key (spec.md 4.1). -/
def iterEntries (seq : String) (s : EdwSuitePerformance) (q : String) :
    Metadata :=
  match dictLookup s.performance q with
  | some qp =>
      (seq ++ "_runtime", .num qp.performance) ::
        qp.metadata.map (fun kv => (seq ++ "_" ++ kv.1, kv.2))
  | none => []

/-- Modelled from the spec: `aggregated_query_metadata` — merge every
iteration's contributed entries into one dictionary; raises under the same
precondition as `aggregated_query_execution_time` (spec.md 4.1). -/
def EdwBenchmarkPerformance.aggregated_query_metadata
    (b : EdwBenchmarkPerformance) (q : String) : Except String Metadata :=
  if b.aggregated_query_status q then
    .ok (b.suite_performances.foldl
      (fun acc p => dictUpdate acc (iterEntries p.1 p.2 q)) [])
  else
    .error ("Cannot aggregate metadata of a missing or failed query.")

/-- Modelled from the spec: `get_aggregated_query_performance_sample` —
metric `edw_aggregated_query_time`, value the aggregated execution time,
metadata = aggregated per-iteration metadata, then the query/status keys,
then the caller's base metadata (spec.md 4.3). -/
def EdwBenchmarkPerformance.get_aggregated_query_performance_sample
    (b : EdwBenchmarkPerformance) (q : String) (m : Metadata) :
    Except String (Sample ℚ) :=
  match b.aggregated_query_execution_time q with
  | .error e => .error e
  | .ok t =>
      match b.aggregated_query_metadata q with
      | .error e => .error e
      | .ok md =>
          .ok ⟨"edw_aggregated_query_time", t, "seconds",
            dictUpdate
              (dictUpdate md
                [("query", .str q), ("aggregation_method", .str ("mean")),
                  ("execution_status", .status .SUCCESSFUL)])
              m⟩

/-- Modelled from the spec: `get_all_query_performance_samples` — every
iteration's raw per-query samples plus one aggregated sample per expected
query (spec.md 4.3). -/
def EdwBenchmarkPerformance.get_all_query_performance_samples
    (b : EdwBenchmarkPerformance) (m : Metadata) :
    Except String (List (Sample ℚ)) :=
  match exceptMapM (fun q => b.get_aggregated_query_performance_sample q m)
      b.expected_suite_queries with
  | .error e => .error e
  | .ok aggs =>
      .ok (((b.suite_performances.map
          (fun p => p.2.get_all_query_performance_samples m)).flatten) ++ aggs)

/-- Modelled from the spec: `get_aggregated_wall_time_performance_sample` —
metric `edw_aggregated_wall_time`, value the mean across iterations of each
iteration's wall-time sum, metadata = the aggregation-method key then the
caller's base metadata (spec.md 4.3). -/
def EdwBenchmarkPerformance.get_aggregated_wall_time_performance_sample
    (b : EdwBenchmarkPerformance) (m : Metadata) : Sample ℚ :=
  ⟨"edw_aggregated_wall_time",
    ((b.suite_performances.map
        (fun p => (p.2.performance.map (fun kv => kv.2.performance)).sum)).sum)
      / (b.suite_performances.length : ℚ),
    "seconds",
    dictUpdate [("aggregation_method", .str ("mean"))] m⟩

/-- Modelled from the spec: `get_wall_time_performance_samples` — every
iteration's raw wall-time sample plus the aggregated one (spec.md 4.3). -/
def EdwBenchmarkPerformance.get_wall_time_performance_samples
    (b : EdwBenchmarkPerformance) (m : Metadata) : List (Sample ℚ) :=
  (b.suite_performances.map (fun p => p.2.get_wall_time_performance_sample m))
    ++ [b.get_aggregated_wall_time_performance_sample m]

/-- Modelled from the spec: `get_aggregated_geomean_performance_sample` —
metric `edw_aggregated_geomean`, value the geometric mean, across expected
queries, of each query's cross-iteration mean execution time
(spec.md 4.3). -/
noncomputable def EdwBenchmarkPerformance.get_aggregated_geomean_performance_sample
    (b : EdwBenchmarkPerformance) (m : Metadata) : Except String (Sample ℝ) :=
  match exceptMapM (fun q => b.aggregated_query_execution_time q)
      b.expected_suite_queries with
  | .error e => .error e
  | .ok ts =>
      match geometric_mean ts with
      | .error e => .error e
      | .ok g =>
          .ok ⟨"edw_aggregated_geomean", g, "seconds",
            dictUpdate
              [("intra_query_aggregation_method", .str ("mean")),
                ("inter_query_aggregation_method", .str ("geomean"))] m⟩

/-- Modelled from the spec: `get_queries_geomean_performance_samples` —
every iteration's raw geomean sample plus the aggregated one
(spec.md 4.3). -/
noncomputable def EdwBenchmarkPerformance.get_queries_geomean_performance_samples
    (b : EdwBenchmarkPerformance) (m : Metadata) :
    Except String (List (Sample ℝ)) :=
  match exceptMapM (fun p => p.2.get_queries_geomean_performance_sample m)
      b.suite_performances with
  | .error e => .error e
  | .ok raws =>
      match b.get_aggregated_geomean_performance_sample m with
      | .error e => .error e
      | .ok agg => .ok (raws ++ [agg])

/-- Specification helper: the elapsed time recorded for query `q` in suite
iteration `s` (`0` when absent; only used under presence hypotheses). -/
def lookupPerf (s : EdwSuitePerformance) (q : String) : ℚ :=
  ((dictLookup s.performance q).map (fun qp => qp.performance)).getD 0

/-- Specification helper: the arithmetic mean of query `q`'s elapsed times
across all registered iterations of benchmark `b`. -/
def queryMean (b : EdwBenchmarkPerformance) (q : String) : ℚ :=
  ((b.suite_performances.map (fun p => lookupPerf p.2 q)).sum)
    / (b.suite_performances.length : ℚ)

/-- The six metric identifiers the engine emits, exactly as the unit tests
pin them down. -/
def emittedMetrics : List String :=
  ["edw_raw_query_time", "edw_raw_wall_time", "edw_raw_geomean_time",
    "edw_aggregated_query_time", "edw_aggregated_wall_time",
    "edw_aggregated_geomean"]

/-- A sample is well-labelled when its metric id is one of the six emitted
identifiers and its unit is the string `seconds`. -/
def sampleOk {α : Type} (x : Sample α) : Prop :=
  x.metric ∈ emittedMetrics ∧ x.unit = "seconds"

/-- Concrete data: a failed query result (the `-1.0` sentinel). -/
def qpFail : EdwQueryPerformance := ⟨"qfail", -1, []⟩

/-- Concrete data: first iteration of the two-iteration example benchmark of
the unit tests (`q1 -> 1.0`, `q2 -> 2.0`, with job-id metadata). -/
def sEx1 : EdwSuitePerformance :=
  ((EdwSuitePerformance.init ("suite_name") ("suite_seq_1") 2).add_query_performance
      ⟨"q1", 1, [("job_id", .str ("q1_s1_job_id"))]⟩).add_query_performance
    ⟨"q2", 2, [("job_id", .str ("q2_s1_job_id"))]⟩

/-- Concrete data: second iteration of the example benchmark
(`q1 -> 3.0`, `q2 -> 4.0`). -/
def sEx2 : EdwSuitePerformance :=
  ((EdwSuitePerformance.init ("suite_name") ("suite_seq_2") 2).add_query_performance
      ⟨"q1", 3, [("job_id", .str ("q1_s2_job_id"))]⟩).add_query_performance
    ⟨"q2", 4, []⟩

/-- Concrete data: the two-iteration, two-query example benchmark of the
unit tests. -/
def bEx : EdwBenchmarkPerformance :=
  ⟨2, ["q1", "q2"], [("suite_seq_1", sEx1), ("suite_seq_2", sEx2)]⟩

/-- Concrete data: a benchmark expecting `q1` and `q2` with no iterations
registered yet. -/
def bEmpty : EdwBenchmarkPerformance := ⟨2, ["q1", "q2"], []⟩

/-- Concrete data: a benchmark expecting only `q1`, with no iterations. -/
def bQ1 : EdwBenchmarkPerformance := ⟨2, ["q1"], []⟩

/-- Concrete data: an iteration that only registered `q1`. -/
def sOnly1 : EdwSuitePerformance :=
  (EdwSuitePerformance.init ("suite_name") ("suite_seq_2") 1).add_query_performance
    ⟨"q1", 1, []⟩

/-- Concrete data: an under-populated iteration — ten expected queries, one
registered successful result. -/
def sUnder : EdwSuitePerformance :=
  (EdwSuitePerformance.init ("suite_name") ("suite_seq") 10).add_query_performance
    ⟨"q1", 1, []⟩

/-- Concrete data: iteration id `a` whose `q1` result carries a metadata key
`b_runtime`, chosen so that its prefixed key collides with iteration
`a_b`'s runtime key. -/
def sColA : EdwSuitePerformance :=
  ⟨"suite_name", "a", 1, [("q1", ⟨"q1", 1, [("b_runtime", .num 9)]⟩)], 1⟩

/-- Concrete data: iteration id `a_b` with a plain `q1` result. -/
def sColB : EdwSuitePerformance :=
  ⟨"suite_name", "a_b", 1, [("q1", ⟨"q1", 2, []⟩)], 1⟩

/-- Concrete data: a benchmark whose two iteration ids (`a` and `a_b`)
produce colliding prefixed metadata keys for `q1`. -/
def bCol : EdwBenchmarkPerformance :=
  ⟨2, ["q1"], [("a", sColA), ("a_b", sColB)]⟩

theorem dictLookup_dictInsert_self {α : Type} (d : List (String × α))
    (k : String) (v : α) : dictLookup (dictInsert d k v) k = some v := by
  induction d with
  | nil => simp [dictInsert, dictLookup]
  | cons hd tl ih =>
      by_cases h : hd.1 = k
      · simp [dictInsert, dictLookup, h]
      · simp [dictInsert, dictLookup, h, ih]

theorem dictInsert_eq_append {α : Type} (d : List (String × α)) (k : String)
    (v : α) (h : k ∉ d.map Prod.fst) : dictInsert d k v = d ++ [(k, v)] := by
  induction d with
  | nil => simp [dictInsert]
  | cons hd tl ih =>
      have h1 : ¬ hd.1 = k := by
        intro hk
        exact h (by simp [hk])
      have h2 : k ∉ tl.map Prod.fst := by
        intro hk
        exact h (by simp [hk])
      simp [dictInsert, h1, ih h2]

theorem dictUpdate_eq_append {α : Type} (d es : List (String × α))
    (hnd : (es.map Prod.fst).Nodup)
    (hfr : ∀ k ∈ es.map Prod.fst, k ∉ d.map Prod.fst) :
    dictUpdate d es = d ++ es := by
  induction es generalizing d with
  | nil => simp [dictUpdate]
  | cons kv es ih =>
      have hins : dictInsert d kv.1 kv.2 = d ++ [kv] := by
        rw [dictInsert_eq_append d kv.1 kv.2 (hfr kv.1 (by simp))]
      have hnd2 : (es.map Prod.fst).Nodup := by
        simp only [List.map_cons, List.nodup_cons] at hnd
        exact hnd.2
      have hhd : kv.1 ∉ es.map Prod.fst := by
        simp only [List.map_cons, List.nodup_cons] at hnd
        exact hnd.1
      have hfr2 : ∀ k ∈ es.map Prod.fst, k ∉ (d ++ [kv]).map Prod.fst := by
        intro k hk
        simp only [List.map_append, List.mem_append]
        rintro (hd1 | hd2)
        · exact hfr k (by simp [hk]) hd1
        · simp at hd2
          rw [hd2] at hk
          exact hhd hk
      calc dictUpdate d (kv :: es)
          = dictUpdate (dictInsert d kv.1 kv.2) es := by
            simp [dictUpdate, List.foldl_cons]
        _ = dictUpdate (d ++ [kv]) es := by rw [hins]
        _ = (d ++ [kv]) ++ es := ih (d ++ [kv]) hnd2 hfr2
        _ = d ++ (kv :: es) := by simp

theorem foldl_dictUpdate_flatten {α : Type} (ls : List (List (String × α)))
    (acc : List (String × α))
    (h : ((acc ++ ls.flatten).map Prod.fst).Nodup) :
    ls.foldl dictUpdate acc = acc ++ ls.flatten := by
  induction ls generalizing acc with
  | nil => simp
  | cons es ls ih =>
      have hflat : (es :: ls).flatten = es ++ ls.flatten := by simp
      rw [hflat] at h
      rw [show acc ++ (es ++ ls.flatten) = (acc ++ es) ++ ls.flatten by simp] at h
      simp only [List.map_append] at h
      rw [List.nodup_append] at h
      obtain ⟨hAE, hF, hAEF⟩ := h
      rw [List.nodup_append] at hAE
      obtain ⟨hA, hE, hAEd⟩ := hAE
      have hfr : ∀ k ∈ es.map Prod.fst, k ∉ acc.map Prod.fst := by
        intro k hk hka
        exact hAEd hka hk
      have hupd : dictUpdate acc es = acc ++ es :=
        dictUpdate_eq_append acc es hE hfr
      have hrec : (((acc ++ es) ++ ls.flatten).map Prod.fst).Nodup := by
        simp only [List.map_append]
        rw [List.nodup_append]
        refine ⟨?_, hF, hAEF⟩
        rw [List.nodup_append]
        exact ⟨hA, hE, hAEd⟩
      calc (es :: ls).foldl dictUpdate acc
          = ls.foldl dictUpdate (dictUpdate acc es) := by simp [List.foldl_cons]
        _ = ls.foldl dictUpdate (acc ++ es) := by rw [hupd]
        _ = (acc ++ es) ++ ls.flatten := ih (acc ++ es) hrec
        _ = acc ++ (es :: ls).flatten := by simp

theorem exceptMapM_mem {α β : Type} (f : α → Except String β) (l : List α)
    (bs : List β) (h : exceptMapM f l = .ok bs) :
    ∀ x ∈ bs, ∃ a ∈ l, f a = .ok x := by
  induction l generalizing bs with
  | nil =>
      simp only [exceptMapM, Except.ok.injEq] at h
      subst h
      simp
  | cons a l ih =>
      unfold exceptMapM at h
      cases hfa : f a with
      | error e => rw [hfa] at h; exact absurd h (by simp)
      | ok b =>
          rw [hfa] at h
          cases hrest : exceptMapM f l with
          | error e => rw [hrest] at h; exact absurd h (by simp)
          | ok bs2 =>
              rw [hrest] at h
              simp only [Except.ok.injEq] at h
              subst h
              intro x hx
              rcases List.mem_cons.mp hx with hx | hx
              · exact ⟨a, by simp, by rw [hfa, hx]⟩
              · rcases ih bs2 hrest x hx with ⟨a2, ha2, hfa2⟩
                exact ⟨a2, by simp [ha2], hfa2⟩

theorem exceptMapM_eq_map {α β : Type} (f : α → Except String β) (g : α → β)
    (l : List α) (h : ∀ a ∈ l, f a = .ok (g a)) :
    exceptMapM f l = .ok (l.map g) := by
  induction l with
  | nil => simp [exceptMapM]
  | cons a l ih =>
      have ha := h a (by simp)
      have hrest := ih (fun x hx => h x (by simp [hx]))
      simp [exceptMapM, ha, hrest]

theorem okD_spec {α : Type} (e : Except String α) (d : α)
    (h : isError e = false) : e = .ok (okD e d) := by
  cases e with
  | error e2 => simp [isError] at h
  | ok a => simp [okD]

theorem is_successful_iff_nonneg (qp : EdwQueryPerformance) :
    qp.is_successful = true ↔ 0 ≤ qp.performance := by
  by_cases h : 0 ≤ qp.performance <;>
    simp [EdwQueryPerformance.is_successful, EdwQueryPerformance.execution_status, h]

theorem presSucc_iff (s : EdwSuitePerformance) (q : String) :
    (match dictLookup s.performance q with
      | some qp => qp.is_successful
      | none => false) = true ↔
      s.has_query_performance q = true ∧ s.is_query_successful q = true := by
  cases h : dictLookup s.performance q <;>
    simp [EdwSuitePerformance.has_query_performance,
      EdwSuitePerformance.is_query_successful, h]

theorem aggregated_query_status_true_iff (b : EdwBenchmarkPerformance)
    (q : String) :
    b.aggregated_query_status q = true ↔
      ∀ p ∈ b.suite_performances,
        p.2.has_query_performance q = true ∧ p.2.is_query_successful q = true := by
  unfold EdwBenchmarkPerformance.aggregated_query_status
  rw [List.all_eq_true]
  constructor
  · intro h p hp
    exact (presSucc_iff p.2 q).mp (h p hp)
  · intro h p hp
    exact (presSucc_iff p.2 q).mpr (h p hp)

theorem times_filterMap (l : List (String × EdwSuitePerformance)) (q : String)
    (h : ∀ p ∈ l, (dictLookup p.2.performance q).isSome = true) :
    l.filterMap
        (fun p => (dictLookup p.2.performance q).map (fun qp => qp.performance))
      = l.map (fun p => lookupPerf p.2 q) := by
  induction l with
  | nil => simp
  | cons p l ih =>
      have hp := h p (by simp)
      cases hl : dictLookup p.2.performance q with
      | none => rw [hl] at hp; simp at hp
      | some qp =>
          have hrest := ih (fun x hx => h x (by simp [hx]))
          simp [List.filterMap_cons, hl, lookupPerf, hrest]

theorem aggregated_query_execution_time_ok (b : EdwBenchmarkPerformance)
    (q : String)
    (h : ∀ p ∈ b.suite_performances,
      p.2.has_query_performance q = true ∧ p.2.is_query_successful q = true) :
    b.aggregated_query_execution_time q = .ok (queryMean b q) := by
  have hstat : b.aggregated_query_status q = true :=
    (aggregated_query_status_true_iff b q).mpr h
  have hsome : ∀ p ∈ b.suite_performances,
      (dictLookup p.2.performance q).isSome = true := by
    intro p hp
    exact (h p hp).1
  unfold EdwBenchmarkPerformance.aggregated_query_execution_time
  rw [if_pos (by simp [hstat])]
  rw [times_filterMap b.suite_performances q hsome]
  simp [queryMean]

theorem aggregated_query_execution_time_isError (b : EdwBenchmarkPerformance)
    (q : String) :
    isError (b.aggregated_query_execution_time q)
      = !(b.aggregated_query_status q) := by
  unfold EdwBenchmarkPerformance.aggregated_query_execution_time
  cases h : b.aggregated_query_status q <;> simp [h, isError]

theorem aggregated_query_metadata_isError (b : EdwBenchmarkPerformance)
    (q : String) :
    isError (b.aggregated_query_metadata q)
      = !(b.aggregated_query_status q) := by
  unfold EdwBenchmarkPerformance.aggregated_query_metadata
  cases h : b.aggregated_query_status q <;> simp [h, isError]

theorem is_query_successful_of_pos (s : EdwSuitePerformance) (q : String)
    (hhas : s.has_query_performance q = true) (hpos : 0 ≤ lookupPerf s q) :
    s.is_query_successful q = true := by
  cases h : dictLookup s.performance q with
  | none => simp [EdwSuitePerformance.has_query_performance, h] at hhas
  | some qp =>
      unfold EdwSuitePerformance.is_query_successful
      rw [h]
      show qp.is_successful = true
      rw [is_successful_iff_nonneg]
      simpa [lookupPerf, h] using hpos

theorem geometric_mean_pos_ok (values : List ℚ) (hne : values ≠ [])
    (hpos : ∀ v ∈ values, 0 < v) :
    ∃ g : ℝ, geometric_mean values = .ok g ∧ 0 ≤ g ∧
      g ^ values.length = (values.map (fun v : ℚ => (v : ℝ))).prod := by
  have hc : ¬ (values = [] ∨ ∃ v ∈ values, v ≤ 0) := by
    rintro (h | ⟨v, hv, hle⟩)
    · exact hne h
    · exact absurd hle (not_le.mpr (hpos v hv))
  have hprodpos : 0 < (values.map (fun v : ℚ => (v : ℝ))).prod := by
    apply List.prod_pos
    intro x hx
    rw [List.mem_map] at hx
    obtain ⟨w, hw, hwx⟩ := hx
    rw [← hwx]
    exact_mod_cast hpos w hw
  refine ⟨((values.map (fun v : ℚ => (v : ℝ))).prod) ^ (((values.length : ℝ))⁻¹),
    ?_, ?_, ?_⟩
  · unfold geometric_mean
    rw [if_neg hc]
  · exact Real.rpow_nonneg (le_of_lt hprodpos) _
  · apply Real.rpow_inv_natCast_pow (le_of_lt hprodpos)
    intro hlen
    exact hne (List.length_eq_zero.mp hlen)

/-- C10: `add_query_performance` keeps `total_count` (and the suite name and
sequence) unchanged, increments `successful_count` by exactly one when the
added result's status is SUCCESSFUL and by zero otherwise, and changes
nothing else but the results mapping. -/
theorem add_query_performance_frame (s : EdwSuitePerformance)
    (q : EdwQueryPerformance) :
    (s.add_query_performance q).total_count = s.total_count
    ∧ (s.add_query_performance q).successful_count
        = s.successful_count
          + (if q.execution_status = .SUCCESSFUL then 1 else 0)
    ∧ (s.add_query_performance q).name = s.name
    ∧ (s.add_query_performance q).sequence = s.sequence
    ∧ (s.add_query_performance q).performance
        = dictInsert s.performance q.name q := by
  refine ⟨rfl, ?_, rfl, rfl, rfl⟩
  by_cases h : q.execution_status = .SUCCESSFUL <;>
    simp [EdwSuitePerformance.add_query_performance,
      EdwQueryPerformance.is_successful, h]

/-- C6: `is_successful()` is true iff every registered query result has
SUCCESSFUL status, and it does not depend on the expected query count
(`total_count`) at all. -/
theorem is_successful_iff_all_registered (s : EdwSuitePerformance) :
    (s.is_successful = true ↔ ∀ p ∈ s.performance, p.2.is_successful = true)
    ∧ ∀ n : ℤ,
      (EdwSuitePerformance.mk s.name s.sequence n s.performance
          s.successful_count).is_successful
        = s.is_successful := by
  constructor
  · exact List.all_eq_true
  · intro n
    rfl

/-- C6 witness: an iteration with `total_count = 10` and a single
registered, successful result still reports `is_successful() == true`. -/
theorem is_successful_iff_all_registered_witness :
    sUnder.total_count = 10 ∧ sUnder.is_successful = true :=
  ⟨by decide, (is_successful_iff_all_registered sUnder).1.mpr (by decide)⟩

/-- C2: `geometric_mean` raises exactly when the input is empty, contains a
zero, or contains a negative value; on a non-empty all-positive input it
returns the non-negative `n`-th root of the product of the values (the
product raised to the power `1/n`); and `geometric_mean [1, 2, 3]` lies in
`[1.815, 1.825)`, i.e. rounds to `1.82` at two decimals. -/
theorem geometric_mean_spec (values : List ℚ) :
    (isError (geometric_mean values) = true ↔
      values = [] ∨ (∃ v ∈ values, v = 0) ∨ (∃ v ∈ values, v < 0))
    ∧ (values ≠ [] → (∀ v ∈ values, 0 < v) →
        ∃ g : ℝ, geometric_mean values = .ok g ∧ 0 ≤ g ∧
          g ^ values.length = (values.map (fun v : ℚ => (v : ℝ))).prod)
    ∧ (∃ g : ℝ, geometric_mean [1, 2, 3] = .ok g ∧
        (1.815 : ℝ) ≤ g ∧ g < (1.825 : ℝ)) := by
  have hcond : (values = [] ∨ ∃ v ∈ values, v ≤ 0) ↔
      (values = [] ∨ (∃ v ∈ values, v = 0) ∨ (∃ v ∈ values, v < 0)) := by
    constructor
    · rintro (h | ⟨v, hv, hle⟩)
      · exact Or.inl h
      · rcases lt_or_eq_of_le hle with h2 | h2
        · exact Or.inr (Or.inr ⟨v, hv, h2⟩)
        · exact Or.inr (Or.inl ⟨v, hv, h2⟩)
    · rintro (h | ⟨v, hv, h0⟩ | ⟨v, hv, h0⟩)
      · exact Or.inl h
      · exact Or.inr ⟨v, hv, le_of_eq h0⟩
      · exact Or.inr ⟨v, hv, le_of_lt h0⟩
  refine ⟨?_, ?_, ?_⟩
  · unfold geometric_mean
    by_cases h : values = [] ∨ ∃ v ∈ values, v ≤ 0
    · rw [if_pos h]
      constructor
      · intro _
        exact hcond.mp h
      · intro _
        rfl
    · rw [if_neg h]
      constructor
      · intro hf
        simp [isError] at hf
      · intro hr
        exact absurd (hcond.mpr hr) h
  · intro hne hpos
    exact geometric_mean_pos_ok values hne hpos
  · obtain ⟨g, hg, hg0, hpow⟩ :=
      geometric_mean_pos_ok [1, 2, 3] (by decide) (by decide)
    have hprod : (([(1 : ℚ), 2, 3]).map (fun v : ℚ => (v : ℝ))).prod = 6 := by
      norm_num
    rw [hprod] at hpow
    have hpow3 : g ^ 3 = 6 := hpow
    refine ⟨g, hg, ?_, ?_⟩
    · by_contra hlt
      push_neg at hlt
      have h3 : g ^ 3 < (1.815 : ℝ) ^ 3 := by
        apply pow_lt_pow_left₀ hlt hg0
        norm_num
      rw [hpow3] at h3
      norm_num at h3
    · by_contra hge
      push_neg at hge
      have h3 : (1.825 : ℝ) ^ 3 ≤ g ^ 3 := pow_le_pow_left₀ (by norm_num) hge 3
      rw [hpow3] at h3
      norm_num at h3

/-- C2 witness: `geometric_mean [1, 2, 3]` succeeds and its value is the
cube root of 6. -/
theorem geometric_mean_spec_witness :
    ([(1 : ℚ), 2, 3] ≠ []) ∧ (∀ v ∈ [(1 : ℚ), 2, 3], 0 < v)
    ∧ ∃ g : ℝ, geometric_mean [1, 2, 3] = .ok g ∧ 0 ≤ g ∧
        g ^ ([(1 : ℚ), 2, 3]).length
          = (([(1 : ℚ), 2, 3]).map (fun v : ℚ => (v : ℝ))).prod :=
  ⟨by decide, by decide,
    (geometric_mean_spec [1, 2, 3]).2.1 (by decide) (by decide)⟩

/-- C1: `add_suite_performance` raises an aggregation error exactly when the
iteration's registered query-name set differs from `expected_queries` in
either direction, and on success stores the iteration under its id. -/
theorem add_suite_performance_spec (b : EdwBenchmarkPerformance)
    (seq : String) (s : EdwSuitePerformance) :
    (isError (b.add_suite_performance seq s) = true ↔
      ¬ ∀ q : String,
        q ∈ s.performance.map Prod.fst ↔ q ∈ b.expected_suite_queries)
    ∧ ∀ b2, b.add_suite_performance seq s = .ok b2 →
        dictLookup b2.suite_performances seq = some s := by
  constructor
  · unfold EdwBenchmarkPerformance.add_suite_performance
    by_cases h1 : ∃ q ∈ b.expected_suite_queries,
        q ∉ s.performance.map Prod.fst
    · rw [if_pos h1]
      constructor
      · intro _ hall
        obtain ⟨q, hq, hn⟩ := h1
        exact hn ((hall q).mpr hq)
      · intro _
        rfl
    · rw [if_neg h1]
      by_cases h2 : ∃ q ∈ s.performance.map Prod.fst,
          q ∉ b.expected_suite_queries
      · rw [if_pos h2]
        constructor
        · intro _ hall
          obtain ⟨q, hq, hn⟩ := h2
          exact hn ((hall q).mp hq)
        · intro _
          rfl
      · rw [if_neg h2]
        constructor
        · intro hf
          simp [isError] at hf
        · intro hno
          exfalso
          apply hno
          intro q
          constructor
          · intro hq
            by_contra hq2
            exact h2 ⟨q, hq, hq2⟩
          · intro hq
            by_contra hq2
            exact h1 ⟨q, hq, hq2⟩
  · intro b2 hok
    unfold EdwBenchmarkPerformance.add_suite_performance at hok
    by_cases h1 : ∃ q ∈ b.expected_suite_queries,
        q ∉ s.performance.map Prod.fst
    · rw [if_pos h1] at hok
      exact absurd hok (by simp)
    · rw [if_neg h1] at hok
      by_cases h2 : ∃ q ∈ s.performance.map Prod.fst,
          q ∉ b.expected_suite_queries
      · rw [if_pos h2] at hok
        exact absurd hok (by simp)
      · rw [if_neg h2] at hok
        simp only [Except.ok.injEq] at hok
        rw [← hok]
        exact dictLookup_dictInsert_self b.suite_performances seq s

/-- C1 witness: registering an iteration that is missing `q2` raises, and a
successfully registered iteration is stored under its iteration id. -/
theorem add_suite_performance_spec_witness :
    isError (bEmpty.add_suite_performance ("suite_seq_2") sOnly1) = true
    ∧ dictLookup
        (okD (bQ1.add_suite_performance ("suite_seq_2") sOnly1)
          bQ1).suite_performances ("suite_seq_2") = some sOnly1 := by
  constructor
  · apply (add_suite_performance_spec bEmpty ("suite_seq_2") sOnly1).1.mpr
    intro hall
    have h := (hall "q2").mpr (by decide)
    exact absurd h (by decide)
  · apply (add_suite_performance_spec bQ1 ("suite_seq_2") sOnly1).2
    exact okD_spec _ _ (by decide)

/-- C3: for a query registered and successful in every iteration,
`aggregated_query_execution_time` returns the arithmetic mean of its elapsed
seconds across iterations, and it raises whenever the query failed in some
iteration or is absent from every iteration. -/
theorem aggregated_query_execution_time_spec (b : EdwBenchmarkPerformance)
    (q : String) :
    (b.suite_performances ≠ [] →
      (∀ p ∈ b.suite_performances,
        p.2.has_query_performance q = true ∧ p.2.is_query_successful q = true) →
      b.aggregated_query_execution_time q = .ok (queryMean b q))
    ∧ ((∃ p ∈ b.suite_performances,
          p.2.has_query_performance q = true
            ∧ p.2.is_query_successful q = false) →
        isError (b.aggregated_query_execution_time q) = true)
    ∧ (b.suite_performances ≠ [] →
        (∀ p ∈ b.suite_performances, p.2.has_query_performance q = false) →
        isError (b.aggregated_query_execution_time q) = true) := by
  refine ⟨?_, ?_, ?_⟩
  · intro _ h
    exact aggregated_query_execution_time_ok b q h
  · rintro ⟨p, hp, hhas, hfailed⟩
    rw [aggregated_query_execution_time_isError]
    cases hstat : b.aggregated_query_status q
    · rfl
    · exfalso
      have h2 := ((aggregated_query_status_true_iff b q).mp hstat p hp).2
      simp [h2] at hfailed
  · intro hne habs
    rw [aggregated_query_execution_time_isError]
    cases hstat : b.aggregated_query_status q
    · rfl
    · exfalso
      obtain ⟨p, hp⟩ := List.exists_mem_of_ne_nil _ hne
      have h1 := ((aggregated_query_status_true_iff b q).mp hstat p hp).1
      simp [habs p hp] at h1

/-- C3 witness: on the example benchmark, `q1`'s aggregated execution time
is the mean of 1.0 and 3.0, i.e. exactly 2.0, and asking for the absent
query `qfail` raises. -/
theorem aggregated_query_execution_time_spec_witness :
    bEx.aggregated_query_execution_time ("q1") = .ok 2
    ∧ isError (bEx.aggregated_query_execution_time ("qfail")) = true := by
  constructor
  · have h := (aggregated_query_execution_time_spec bEx ("q1")).1
      (by decide) (by decide)
    rw [h]
    simp [queryMean, lookupPerf, bEx, sEx1, sEx2,
      EdwSuitePerformance.init, EdwSuitePerformance.add_query_performance,
      dictInsert, dictLookup]
    norm_num
  · exact (aggregated_query_execution_time_spec bEx ("qfail")).2.2
      (by decide) (by decide)

/-- C9: for a query absent from every registered iteration,
`aggregated_query_status` returns `false` (it is total and raises nothing),
while `aggregated_query_execution_time` and `aggregated_query_metadata` both
raise on the very same input. -/
theorem aggregated_query_status_total_spec (b : EdwBenchmarkPerformance)
    (q : String) (hne : b.suite_performances ≠ [])
    (habs : ∀ p ∈ b.suite_performances, p.2.has_query_performance q = false) :
    b.aggregated_query_status q = false
    ∧ isError (b.aggregated_query_execution_time q) = true
    ∧ isError (b.aggregated_query_metadata q) = true := by
  have hstat : b.aggregated_query_status q = false := by
    cases hstat : b.aggregated_query_status q
    · rfl
    · exfalso
      obtain ⟨p, hp⟩ := List.exists_mem_of_ne_nil _ hne
      have h1 := ((aggregated_query_status_true_iff b q).mp hstat p hp).1
      simp [habs p hp] at h1
  refine ⟨hstat, ?_, ?_⟩
  · rw [aggregated_query_execution_time_isError, hstat]
    rfl
  · rw [aggregated_query_metadata_isError, hstat]
    rfl

/-- C9 witness: on the example benchmark the unknown name `qfail` yields
`aggregated_query_status == false` while both per-query aggregates raise. -/
theorem aggregated_query_status_total_spec_witness :
    bEx.aggregated_query_status ("qfail") = false
    ∧ isError (bEx.aggregated_query_execution_time ("qfail")) = true
    ∧ isError (bEx.aggregated_query_metadata ("qfail")) = true :=
  aggregated_query_status_total_spec bEx ("qfail") (by decide) (by decide)

/-- C5: an iteration's raw wall-time sample value is the plain sum of all
registered elapsed seconds — adding a result (even a failed `-1.0` one)
adds its value into the sum as-is — and the aggregated wall-time sample is
the mean across iterations of those per-iteration sums. -/
theorem wall_time_spec (s : EdwSuitePerformance) (qp : EdwQueryPerformance)
    (b : EdwBenchmarkPerformance) (m m2 m3 : Metadata) :
    ((s.get_wall_time_performance_sample m).value
        = (s.performance.map (fun p => p.2.performance)).sum)
    ∧ (qp.name ∉ s.performance.map Prod.fst →
        ((s.add_query_performance qp).get_wall_time_performance_sample m2).value
          = (s.get_wall_time_performance_sample m2).value + qp.performance)
    ∧ (b.suite_performances ≠ [] →
        (b.get_aggregated_wall_time_performance_sample m3).value
          = ((b.suite_performances.map
              (fun p => (p.2.get_wall_time_performance_sample m3).value)).sum)
            / (b.suite_performances.length : ℚ)) := by
  refine ⟨rfl, ?_, ?_⟩
  · intro hfresh
    show ((dictInsert s.performance qp.name qp).map
        (fun p => p.2.performance)).sum = _
    rw [dictInsert_eq_append s.performance qp.name qp hfresh]
    simp [EdwSuitePerformance.get_wall_time_performance_sample]
  · intro _
    rfl

/-- C5 witness: the example first iteration sums to 3.0; adding a failed
query result lowers the sum to 2.0 (the sentinel `-1.0` is added as-is);
and the aggregated wall time of the example benchmark is
`(3.0 + 7.0) / 2 = 5.0`. -/
theorem wall_time_spec_witness :
    (sEx1.get_wall_time_performance_sample []).value = 3
    ∧ ((sEx1.add_query_performance qpFail).get_wall_time_performance_sample
        []).value = 2
    ∧ (bEx.get_aggregated_wall_time_performance_sample []).value = 5 := by
  obtain ⟨h1, h2, h3⟩ := wall_time_spec sEx1 qpFail bEx [] [] []
  refine ⟨?_, ?_, ?_⟩
  · rw [h1]
    simp [sEx1, EdwSuitePerformance.init,
      EdwSuitePerformance.add_query_performance, dictInsert]
    norm_num
  · rw [h2 (by decide), h1]
    simp [sEx1, qpFail, EdwSuitePerformance.init,
      EdwSuitePerformance.add_query_performance, dictInsert]
  · rw [h3 (by decide)]
    simp [bEx, sEx1, sEx2, EdwSuitePerformance.init,
      EdwSuitePerformance.add_query_performance, dictInsert,
      EdwSuitePerformance.get_wall_time_performance_sample]
    norm_num

/-- C8 counterexample: prefixing metadata keys with the iteration id does
not prevent collisions between iterations.  With iteration ids `a` and
`a_b`, iteration `a`'s metadata key `b_runtime` and iteration `a_b`'s
runtime entry both map to the key `a_b_runtime`: the union described by the
claim would hold three entries (among them `a_b_runtime -> 9`), but the
computed dictionary holds two, the later iteration having overwritten the
earlier entry. -/
theorem aggregated_query_metadata_collision :
    bCol.aggregated_query_metadata ("q1")
      = .ok [("a_runtime", .num 1), ("a_b_runtime", .num 2)]
    ∧ ("a_b_runtime", MetaVal.num 9) ∈
        ((bCol.suite_performances.map
          (fun p => iterEntries p.1 p.2 ("q1"))).flatten)
    ∧ ¬ (((bCol.suite_performances.map
          (fun p => iterEntries p.1 p.2 ("q1"))).flatten).map Prod.fst).Nodup
    ∧ ((bCol.suite_performances.map
          (fun p => iterEntries p.1 p.2 ("q1"))).flatten).length = 3 := by
  refine ⟨?_, by decide, by decide, by decide⟩
  rfl

/-- C8 (amended): when the query succeeded in every iteration and the
prefixed keys generated across iterations are pairwise distinct,
`aggregated_query_metadata` returns exactly the union (concatenation) over
iterations of the `{iteration_id}_runtime` entry and the
`{iteration_id}_{key}` entries; prefixing alone does not guarantee
distinctness (an iteration id extending another can collide, in which case
later iterations overwrite); and it raises exactly when
`aggregated_query_execution_time` raises. -/
theorem aggregated_query_metadata_spec (b : EdwBenchmarkPerformance)
    (q : String) :
    ((∀ p ∈ b.suite_performances,
        p.2.has_query_performance q = true ∧ p.2.is_query_successful q = true) →
      (((b.suite_performances.map (fun p => iterEntries p.1 p.2 q)).flatten).map
          Prod.fst).Nodup →
      b.aggregated_query_metadata q
        = .ok ((b.suite_performances.map
            (fun p => iterEntries p.1 p.2 q)).flatten))
    ∧ isError (b.aggregated_query_metadata q)
        = isError (b.aggregated_query_execution_time q) := by
  constructor
  · intro h hnd
    have hstat : b.aggregated_query_status q = true :=
      (aggregated_query_status_true_iff b q).mpr h
    unfold EdwBenchmarkPerformance.aggregated_query_metadata
    rw [if_pos (by simp [hstat])]
    congr 1
    have hfused : b.suite_performances.foldl
        (fun acc p => dictUpdate acc (iterEntries p.1 p.2 q)) []
        = (b.suite_performances.map
            (fun p => iterEntries p.1 p.2 q)).foldl dictUpdate [] :=
      (List.foldl_map _ _ _ _).symm
    rw [hfused]
    exact (foldl_dictUpdate_flatten _ [] (by simpa using hnd)).trans (by simp)
  · rw [aggregated_query_metadata_isError,
      aggregated_query_execution_time_isError]

/-- C8 witness: on the example benchmark the aggregated metadata of `q1` is
the four-entry union of both iterations' runtime and job-id entries, and for
the absent query `qfail` the metadata aggregate raises exactly when the
execution-time aggregate does. -/
theorem aggregated_query_metadata_spec_witness :
    bEx.aggregated_query_metadata ("q1")
      = .ok [("suite_seq_1_runtime", .num 1),
          ("suite_seq_1_job_id", .str ("q1_s1_job_id")),
          ("suite_seq_2_runtime", .num 3),
          ("suite_seq_2_job_id", .str ("q1_s2_job_id"))]
    ∧ isError (bEx.aggregated_query_metadata ("qfail"))
        = isError (bEx.aggregated_query_execution_time ("qfail")) := by
  constructor
  · have h := (aggregated_query_metadata_spec bEx ("q1")).1 (by decide) (by decide)
    rw [h]
    rfl
  · exact (aggregated_query_metadata_spec bEx ("qfail")).2

/-- C4: on a benchmark whose expected queries all succeeded (with positive
times) in every registered iteration, the aggregated geomean sample carries
the geometric mean, across the expected queries, of each query's
cross-iteration mean execution time — the geomean of per-query means. -/
theorem aggregated_geomean_spec (b : EdwBenchmarkPerformance) (m : Metadata)
    (hne : b.suite_performances ≠ [])
    (hqe : b.expected_suite_queries ≠ [])
    (hq : ∀ q ∈ b.expected_suite_queries, ∀ p ∈ b.suite_performances,
      p.2.has_query_performance q = true ∧ 0 < lookupPerf p.2 q) :
    ∃ g : ℝ,
      b.get_aggregated_geomean_performance_sample m
        = .ok ⟨"edw_aggregated_geomean", g, "seconds",
            dictUpdate
              [("intra_query_aggregation_method", .str ("mean")),
                ("inter_query_aggregation_method", .str ("geomean"))] m⟩
      ∧ geometric_mean (b.expected_suite_queries.map (fun q => queryMean b q))
          = .ok g := by
  have hok : ∀ q ∈ b.expected_suite_queries,
      b.aggregated_query_execution_time q = .ok (queryMean b q) := by
    intro q hq2
    apply aggregated_query_execution_time_ok
    intro p hp
    obtain ⟨hhas, hpos⟩ := hq q hq2 p hp
    exact ⟨hhas, is_query_successful_of_pos p.2 q hhas (le_of_lt hpos)⟩
  have hmapm : exceptMapM (fun q => b.aggregated_query_execution_time q)
      b.expected_suite_queries
      = .ok (b.expected_suite_queries.map (fun q => queryMean b q)) :=
    exceptMapM_eq_map _ _ _ hok
  have hmeanpos : ∀ v ∈ b.expected_suite_queries.map (fun q => queryMean b q),
      0 < v := by
    intro v hv
    simp only [List.mem_map] at hv
    obtain ⟨q, hq2, hqv⟩ := hv
    rw [← hqv]
    unfold queryMean
    apply div_pos
    · apply List.sum_pos
      · intro x hx
        simp only [List.mem_map] at hx
        obtain ⟨p, hp, hpx⟩ := hx
        rw [← hpx]
        exact (hq q hq2 p hp).2
      · intro hc
        rw [List.map_eq_nil_iff] at hc
        exact hne hc
    · have hlen : 0 < b.suite_performances.length := List.length_pos.mpr hne
      exact_mod_cast hlen
  have hc : ¬ (b.expected_suite_queries.map (fun q => queryMean b q) = []
      ∨ ∃ v ∈ b.expected_suite_queries.map (fun q => queryMean b q), v ≤ 0) := by
    rintro (hcc | ⟨v, hv, hle⟩)
    · rw [List.map_eq_nil_iff] at hcc
      exact hqe hcc
    · exact absurd hle (not_le.mpr (hmeanpos v hv))
  have hgm : geometric_mean
      (b.expected_suite_queries.map (fun q => queryMean b q))
      = .ok ((((b.expected_suite_queries.map (fun q => queryMean b q)).map
            (fun v : ℚ => (v : ℝ))).prod)
          ^ ((((b.expected_suite_queries.map
              (fun q => queryMean b q)).length : ℝ))⁻¹)) := by
    unfold geometric_mean
    rw [if_neg hc]
  refine ⟨_, ?_, hgm⟩
  have step1 : b.get_aggregated_geomean_performance_sample m
      = match geometric_mean
          (b.expected_suite_queries.map (fun q => queryMean b q)) with
        | .error e => .error e
        | .ok g =>
            .ok ⟨"edw_aggregated_geomean", g, "seconds",
              dictUpdate
                [("intra_query_aggregation_method", .str ("mean")),
                  ("inter_query_aggregation_method", .str ("geomean"))] m⟩ := by
    unfold EdwBenchmarkPerformance.get_aggregated_geomean_performance_sample
    rw [hmapm]
  rw [step1, hgm]

/-- C4 witness: on the example benchmark the per-query cross-iteration means
are `[2.0, 3.0]` and the aggregated geomean sample's value is exactly
`geometric_mean [2.0, 3.0]`. -/
theorem aggregated_geomean_spec_witness :
    (bEx.expected_suite_queries.map (fun q => queryMean bEx q)) = [2, 3]
    ∧ ∃ g : ℝ,
        bEx.get_aggregated_geomean_performance_sample []
          = .ok ⟨"edw_aggregated_geomean", g, "seconds",
              dictUpdate
                [("intra_query_aggregation_method", .str ("mean")),
                  ("inter_query_aggregation_method", .str ("geomean"))] []⟩
        ∧ geometric_mean [2, 3] = .ok g := by
  have hmeans : (bEx.expected_suite_queries.map (fun q => queryMean bEx q))
      = [2, 3] := by
    simp [queryMean, lookupPerf, bEx, sEx1, sEx2,
      EdwSuitePerformance.init, EdwSuitePerformance.add_query_performance,
      dictInsert, dictLookup]
    norm_num
  refine ⟨hmeans, ?_⟩
  obtain ⟨g, hs, hgm⟩ := aggregated_geomean_spec bEx [] (by decide) (by decide)
    (by decide)
  refine ⟨g, hs, ?_⟩
  rw [← hmeans]
  exact hgm

theorem sampleOk_raw_query (qp : EdwQueryPerformance) (m : Metadata) :
    sampleOk (qp.get_performance_sample m) :=
  ⟨by show "edw_raw_query_time" ∈ emittedMetrics; decide, rfl⟩

theorem sampleOk_raw_wall (s : EdwSuitePerformance) (m : Metadata) :
    sampleOk (s.get_wall_time_performance_sample m) :=
  ⟨by show "edw_raw_wall_time" ∈ emittedMetrics; decide, rfl⟩

theorem sampleOk_agg_wall (b : EdwBenchmarkPerformance) (m : Metadata) :
    sampleOk (b.get_aggregated_wall_time_performance_sample m) :=
  ⟨by show "edw_aggregated_wall_time" ∈ emittedMetrics; decide, rfl⟩

theorem sampleOk_agg_query (b : EdwBenchmarkPerformance) (q : String)
    (m : Metadata) (x : Sample ℚ)
    (h : b.get_aggregated_query_performance_sample q m = .ok x) :
    sampleOk x := by
  unfold EdwBenchmarkPerformance.get_aggregated_query_performance_sample at h
  cases h1 : b.aggregated_query_execution_time q with
  | error e =>
      rw [h1] at h
      exact absurd h (by simp)
  | ok t =>
      rw [h1] at h
      cases h2 : b.aggregated_query_metadata q with
      | error e =>
          rw [h2] at h
          exact absurd h (by simp)
      | ok md =>
          rw [h2] at h
          simp only [Except.ok.injEq] at h
          rw [← h]
          exact ⟨by show "edw_aggregated_query_time" ∈ emittedMetrics; decide, rfl⟩

theorem sampleOk_raw_geomean (s : EdwSuitePerformance) (m : Metadata)
    (x : Sample ℝ)
    (h : s.get_queries_geomean_performance_sample m = .ok x) :
    sampleOk x := by
  unfold EdwSuitePerformance.get_queries_geomean_performance_sample at h
  cases h1 : geometric_mean (s.performance.map (fun p => p.2.performance)) with
  | error e =>
      rw [h1] at h
      exact absurd h (by simp)
  | ok g =>
      rw [h1] at h
      simp only [Except.ok.injEq] at h
      rw [← h]
      exact ⟨by show "edw_raw_geomean_time" ∈ emittedMetrics; decide, rfl⟩

theorem sampleOk_agg_geomean (b : EdwBenchmarkPerformance) (m : Metadata)
    (x : Sample ℝ)
    (h : b.get_aggregated_geomean_performance_sample m = .ok x) :
    sampleOk x := by
  unfold EdwBenchmarkPerformance.get_aggregated_geomean_performance_sample at h
  cases h1 : exceptMapM (fun q => b.aggregated_query_execution_time q)
      b.expected_suite_queries with
  | error e =>
      rw [h1] at h
      exact absurd h (by simp)
  | ok ts =>
      rw [h1] at h
      have h3 : (match geometric_mean ts with
          | Except.error e => (Except.error e : Except String (Sample ℝ))
          | Except.ok g =>
              Except.ok ⟨"edw_aggregated_geomean", g, "seconds",
                dictUpdate
                  [("intra_query_aggregation_method", MetaVal.str ("mean")),
                    ("inter_query_aggregation_method",
                      MetaVal.str ("geomean"))] m⟩) = Except.ok x := h
      cases h2 : geometric_mean ts with
      | error e =>
          rw [h2] at h3
          exact absurd h3 (by simp)
      | ok g =>
          rw [h2] at h3
          simp only [Except.ok.injEq] at h3
          rw [← h3]
          exact ⟨by show "edw_aggregated_geomean" ∈ emittedMetrics; decide, rfl⟩

/-- C7 counterexample: the engine's metric identifiers carry an `edw_`
prefix — the raw query-time sample of a one-query run has metric
`edw_raw_query_time`, which is none of the six unprefixed identifiers the
claim lists. -/
theorem emitted_metric_not_unprefixed :
    (EdwQueryPerformance.get_performance_sample ⟨"q1", 1, []⟩ []).metric
      ∉ ["raw_query_time", "raw_wall_time", "raw_geomean_time",
          "aggregated_query_time", "aggregated_wall_time",
          "aggregated_geomean"] := by
  decide

/-- C7 (amended): every sample any of the engine's emitters produces
carries one of exactly the six `edw_`-prefixed metric ids —
`edw_raw_query_time`, `edw_raw_wall_time`, `edw_raw_geomean_time`,
`edw_aggregated_query_time`, `edw_aggregated_wall_time`,
`edw_aggregated_geomean` — and its unit is always the string `seconds`. -/
theorem samples_metric_unit_spec (qp : EdwQueryPerformance)
    (s : EdwSuitePerformance) (b : EdwBenchmarkPerformance) (q : String)
    (m : Metadata) :
    sampleOk (qp.get_performance_sample m)
    ∧ (∀ x ∈ s.get_all_query_performance_samples m, sampleOk x)
    ∧ sampleOk (s.get_wall_time_performance_sample m)
    ∧ (∀ x, s.get_queries_geomean_performance_sample m = .ok x → sampleOk x)
    ∧ (∀ x, b.get_aggregated_query_performance_sample q m = .ok x →
        sampleOk x)
    ∧ (∀ xs, b.get_all_query_performance_samples m = .ok xs →
        ∀ x ∈ xs, sampleOk x)
    ∧ sampleOk (b.get_aggregated_wall_time_performance_sample m)
    ∧ (∀ x ∈ b.get_wall_time_performance_samples m, sampleOk x)
    ∧ (∀ x, b.get_aggregated_geomean_performance_sample m = .ok x →
        sampleOk x)
    ∧ (∀ xs, b.get_queries_geomean_performance_samples m = .ok xs →
        ∀ x ∈ xs, sampleOk x) := by
  refine ⟨sampleOk_raw_query qp m, ?_, sampleOk_raw_wall s m, ?_, ?_, ?_,
    sampleOk_agg_wall b m, ?_, ?_, ?_⟩
  · intro x hx
    unfold EdwSuitePerformance.get_all_query_performance_samples at hx
    simp only [List.mem_map] at hx
    obtain ⟨p, hp, hpx⟩ := hx
    rw [← hpx]
    exact sampleOk_raw_query p.2 m
  · intro x hx
    exact sampleOk_raw_geomean s m x hx
  · intro x hx
    exact sampleOk_agg_query b q m x hx
  · intro xs h x hx
    unfold EdwBenchmarkPerformance.get_all_query_performance_samples at h
    cases h1 : exceptMapM
        (fun q2 => b.get_aggregated_query_performance_sample q2 m)
        b.expected_suite_queries with
    | error e =>
        rw [h1] at h
        exact absurd h (by simp)
    | ok aggs =>
        rw [h1] at h
        simp only [Except.ok.injEq] at h
        rw [← h] at hx
        rw [List.mem_append] at hx
        rcases hx with hx | hx
        · simp only [List.mem_flatten, List.mem_map] at hx
          obtain ⟨l2, ⟨p, hp, hpl⟩, hxl⟩ := hx
          rw [← hpl] at hxl
          unfold EdwSuitePerformance.get_all_query_performance_samples at hxl
          simp only [List.mem_map] at hxl
          obtain ⟨p2, hp2, hpx⟩ := hxl
          rw [← hpx]
          exact sampleOk_raw_query p2.2 m
        · obtain ⟨q2, hq2, hfq⟩ := exceptMapM_mem _ _ _ h1 x hx
          exact sampleOk_agg_query b q2 m x hfq
  · intro x hx
    unfold EdwBenchmarkPerformance.get_wall_time_performance_samples at hx
    rw [List.mem_append] at hx
    rcases hx with hx | hx
    · simp only [List.mem_map] at hx
      obtain ⟨p, hp, hpx⟩ := hx
      rw [← hpx]
      exact sampleOk_raw_wall p.2 m
    · rw [List.mem_singleton] at hx
      rw [hx]
      exact sampleOk_agg_wall b m
  · intro x hx
    exact sampleOk_agg_geomean b m x hx
  · intro xs h x hx
    unfold EdwBenchmarkPerformance.get_queries_geomean_performance_samples at h
    cases h1 : exceptMapM
        (fun p => p.2.get_queries_geomean_performance_sample m)
        b.suite_performances with
    | error e =>
        rw [h1] at h
        exact absurd h (by simp)
    | ok raws =>
        rw [h1] at h
        cases h2 : b.get_aggregated_geomean_performance_sample m with
        | error e =>
            rw [h2] at h
            exact absurd h (by simp)
        | ok agg =>
            rw [h2] at h
            simp only [Except.ok.injEq] at h
            rw [← h] at hx
            rw [List.mem_append] at hx
            rcases hx with hx | hx
            · obtain ⟨p, hp, hfp⟩ := exceptMapM_mem _ _ _ h1 x hx
              exact sampleOk_raw_geomean p.2 m x hfp
            · rw [List.mem_singleton] at hx
              rw [hx]
              exact sampleOk_agg_geomean b m agg h2

/-- C7 witness: two concrete emitted samples — a raw query-time sample and
the example benchmark's aggregated wall-time sample — carry an emitted
metric id and the unit `seconds`. -/
theorem samples_metric_unit_spec_witness :
    sampleOk ((EdwQueryPerformance.mk ("q1") 1 []).get_performance_sample [])
    ∧ sampleOk (bEx.get_aggregated_wall_time_performance_sample []) :=
  ⟨(samples_metric_unit_spec (EdwQueryPerformance.mk ("q1") 1 []) sEx1 bEx
      ("q1") []).1,
    (samples_metric_unit_spec (EdwQueryPerformance.mk ("q1") 1 []) sEx1 bEx
      ("q1") []).2.2.2.2.2.2.1⟩
